import Mathlib

/-!
# Verification of the adaptive OSM water-point fetcher

A shallow embedding, in Lean 4, of the core of the `water-on-route`
repository: the OSM/Overpass response parser (`parseOsmXmlForWater`),
the bounding-box utilities (`bboxSpan`, `splitBboxIntoQuads`), the
adaptive split-and-retry engine (`fetchOSMWaterPointsAdaptive` with its
inner `fetchTile` recursion), the query/URL builders, and the planar
proximity filter (`lonLatToWebMercator`, `pointToSegmentDistanceMeters`,
`minDistancePointToLineStringMeters`, `filterPointsNearRoute`).

Modelling conventions:
* JS numbers that hold coordinates, ids and durations are modelled as `ℚ`;
  a JS number that may be `NaN`/`±Infinity` is modelled as `Option ℚ`
  (`none` = non-finite).  The proximity filter's transcendental
  arithmetic (`Math.log`, `Math.tan`) is modelled over `ℝ`.
* The HTTP transport plus its error channel is abstracted as an oracle
  `Bbox → Except JsError XForest`: both clients (`fetchOsmMapXml`,
  `fetchOverpassXml`) attach the HTTP status to the thrown error, the
  abort-on-timeout path throws an error with no status, and a successful
  response body is handed to the XML parser, so the oracle returns the
  parsed XML document of a successful fetch.
* The recursion of `fetchTile` is embedded with an explicit fuel
  parameter; `none` marks fuel exhaustion, so a `some` result is a run
  that the JS recursion actually performs.
* The `onProgress` calls and the `sleep` calls performed by a run are
  recorded in an explicit `RunState`.
-/

attribute [local semireducible] Rat.add Rat.sub Rat.mul Rat.inv

/-! ## XML document model

The DOM produced by `DOMParser.parseFromString`, restricted to what the
parser uses: element names, attributes, and child elements in document
order.  `XForest` is a list of sibling elements. -/

mutual
inductive XElem where
  | mk (name : String) (attrs : List (String × String)) (children : XForest)
inductive XForest where
  | nil
  | cons (head : XElem) (rest : XForest)
end

def XElem.name : XElem → String
  | .mk n _ _ => n

def XElem.attrs : XElem → List (String × String)
  | .mk _ a _ => a

def XElem.children : XElem → XForest
  | .mk _ _ c => c

/-- `el.getAttribute(k)`: `null` (here `none`) when the attribute is absent. -/
def getAttribute (e : XElem) (k : String) : Option String :=
  (e.attrs.find? (fun kv => kv.1 = k)).map (fun kv => kv.2)

mutual
/-- All elements named `n` in the tree rooted at `e` (including `e`), document order. -/
def collectByName (n : String) : XElem → List XElem
  | .mk nm attrs ch => (if nm = n then [XElem.mk nm attrs ch] else []) ++ collectByNameF n ch
/-- All elements named `n` in a forest, document order. -/
def collectByNameF (n : String) : XForest → List XElem
  | .nil => []
  | .cons e rest => collectByName n e ++ collectByNameF n rest
end

/-- `el.getElementsByTagName(n)`: the descendants of `el` named `n`. -/
def getElementsByTagName (e : XElem) (n : String) : List XElem :=
  collectByNameF n e.children

/-- `document.getElementsByTagName(n)`: every element named `n` in the document. -/
def docElementsByTagName (doc : XForest) (n : String) : List XElem :=
  collectByNameF n doc

/-! ## JS `Number()` conversion

`Number(node.getAttribute('lat'))` feeds either `null` (absent
attribute) or the attribute string into JS `ToNumber`.  `Number(null)`
is `0`; a string is trimmed and parsed as an (optionally signed)
decimal/scientific literal, `""` is `0`, and anything else — including
`"Infinity"`, which is likewise non-finite — is modelled as `none`
(the OSM attributes this code consumes use only these decimal forms). -/

def digitVal (c : Char) : ℕ := c.toNat - 48

def decDigitsVal (cs : List Char) : ℕ :=
  cs.foldl (fun acc c => 10 * acc + digitVal c) 0

def parseJsNumberCore (cs0 : List Char) : Option ℚ :=
  let sgn : ℚ × List Char :=
    match cs0 with
    | '-' :: rest => (-1, rest)
    | '+' :: rest => (1, rest)
    | _ => (1, cs0)
  let cs := sgn.2
  if cs = "Infinity".toList then none
  else
    let intPart := cs.takeWhile Char.isDigit
    let cs1 := cs.dropWhile Char.isDigit
    let fracAndRest : List Char × List Char :=
      match cs1 with
      | '.' :: rest => (rest.takeWhile Char.isDigit, rest.dropWhile Char.isDigit)
      | _ => ([], cs1)
    let fracPart := fracAndRest.1
    let cs2 := fracAndRest.2
    if intPart = [] ∧ fracPart = [] then none
    else
      let mant : ℚ := (decDigitsVal intPart : ℚ) + (decDigitsVal fracPart : ℚ) / 10 ^ fracPart.length
      match cs2 with
      | [] => some (sgn.1 * mant)
      | e :: rest =>
        if e = 'e' ∨ e = 'E' then
          let esgn : Bool × List Char :=
            match rest with
            | '-' :: r => (false, r)
            | '+' :: r => (true, r)
            | _ => (true, rest)
          let eDigits := esgn.2.takeWhile Char.isDigit
          let rest3 := esgn.2.dropWhile Char.isDigit
          if eDigits = [] ∨ rest3 ≠ [] then none
          else some (sgn.1 * (if esgn.1 then mant * 10 ^ decDigitsVal eDigits else mant / 10 ^ decDigitsVal eDigits))
        else none

def isJsSpace (c : Char) : Bool := c = ' ' ∨ c = '\t' ∨ c = '\n' ∨ c = '\r'

def jsStringToNumber (str : String) : Option ℚ :=
  let cs := ((str.toList.dropWhile isJsSpace).reverse.dropWhile isJsSpace).reverse
  if cs = [] then some 0 else parseJsNumberCore cs

/-- JS `Number(x)` for `x` a `getAttribute` result: `Number(null) = 0`. -/
def jsToNumber : Option String → Option ℚ
  | none => some 0
  | some s => jsStringToNumber s

/-! ## Water features and the response parser -/

inductive FeatureKind where
  | node
  | way
  | relation
deriving DecidableEq

/-- A parsed feature record.  `pos` is the node's `(lat, lon)` or a
way/relation's `center` `(lat, lon)`; `none` means the record carries no
finite position.  `id` is `Number(getAttribute('id'))`. -/
structure WaterFeature where
  id : Option ℚ
  tags : List (String × Option String)
  kind : FeatureKind
  pos : Option (ℚ × ℚ)
deriving DecidableEq

/-- `tags[k] = v`: JS object assignment — overwrite in place, else append. -/
def setTag (tags : List (String × Option String)) (k : String) (v : Option String) :
    List (String × Option String) :=
  if tags.any (fun kv => kv.1 = k) then tags.map (fun kv => if kv.1 = k then (k, v) else kv)
  else tags ++ [(k, v)]

/-- The `tag` children loop: `if (k) tags[k] = v` (skip null/empty keys). -/
def collectTags (tagEls : List XElem) : List (String × Option String) :=
  tagEls.foldl
    (fun tags t =>
      match getAttribute t "k" with
      | none => tags
      | some k => if k = "" then tags else setTag tags k (getAttribute t "v"))
    []

def lookupTag (tags : List (String × Option String)) (k : String) : Option (Option String) :=
  (tags.find? (fun kv => kv.1 = k)).map (fun kv => kv.2)

/-- `amenity === 'drinking_water' || natural === 'spring' || man_made === 'water_tap'`. -/
def isWaterTags (tags : List (String × Option String)) : Prop :=
  lookupTag tags "amenity" = some (some "drinking_water")
  ∨ lookupTag tags "natural" = some (some "spring")
  ∨ lookupTag tags "man_made" = some (some "water_tap")

instance (tags : List (String × Option String)) : Decidable (isWaterTags tags) := by
  unfold isWaterTags; infer_instance

/-- The `node` loop body of `parseOsmXmlForWater`: push when the tag
test and the `Number.isFinite(lat) && Number.isFinite(lon)` test pass. -/
def nodePush (acc : List WaterFeature) (node : XElem) : List WaterFeature :=
  let tags := collectTags (getElementsByTagName node "tag")
  if isWaterTags tags then
    match jsToNumber (getAttribute node "lat"), jsToNumber (getAttribute node "lon") with
    | some lat, some lon =>
      acc ++ [⟨jsToNumber (getAttribute node "id"), tags, .node, some (lat, lon)⟩]
    | _, _ => acc
  else acc

/-- The `way`/`relation` loop body: always push when the tag test passes;
attach a `center` position only when the first nested `center` element
yields finite `lat`/`lon` conversions. -/
def centerPush (kind : FeatureKind) (acc : List WaterFeature) (el : XElem) : List WaterFeature :=
  let tags := collectTags (getElementsByTagName el "tag")
  if isWaterTags tags then
    let pos : Option (ℚ × ℚ) :=
      match (getElementsByTagName el "center").head? with
      | none => none
      | some c =>
        match jsToNumber (getAttribute c "lat"), jsToNumber (getAttribute c "lon") with
        | some la, some lo => some (la, lo)
        | _, _ => none
    acc ++ [⟨jsToNumber (getAttribute el "id"), tags, kind, pos⟩]
  else acc

/-- `parseOsmXmlForWater`: the three sequential document passes
(`node`, `way`, `relation`) pushing into one `results` array. -/
def parseOsmXmlForWater (doc : XForest) : List WaterFeature :=
  let r1 := (docElementsByTagName doc "node").foldl nodePush []
  let r2 := (docElementsByTagName doc "way").foldl (centerPush .way) r1
  (docElementsByTagName doc "relation").foldl (centerPush .relation) r2

/-! Spec-side restatement of the parser (for the refinement theorem):
per-element feature extraction, then `filterMap` over each pass. -/

def nodeFeature? (node : XElem) : Option WaterFeature :=
  let tags := collectTags (getElementsByTagName node "tag")
  if isWaterTags tags then
    match jsToNumber (getAttribute node "lat"), jsToNumber (getAttribute node "lon") with
    | some lat, some lon => some ⟨jsToNumber (getAttribute node "id"), tags, .node, some (lat, lon)⟩
    | _, _ => none
  else none

def centerOf (el : XElem) : Option (ℚ × ℚ) :=
  match (getElementsByTagName el "center").head? with
  | none => none
  | some c =>
    match jsToNumber (getAttribute c "lat"), jsToNumber (getAttribute c "lon") with
    | some la, some lo => some (la, lo)
    | _, _ => none

def centerFeature? (kind : FeatureKind) (el : XElem) : Option WaterFeature :=
  let tags := collectTags (getElementsByTagName el "tag")
  if isWaterTags tags then some ⟨jsToNumber (getAttribute el "id"), tags, kind, centerOf el⟩
  else none

/-- Declarative form of the parser: a node is emitted iff its tag
mapping passes the water test and both coordinate conversions are
finite; a way/relation is emitted iff its tag mapping passes the water
test, with a position exactly when the first nested `center` element
converts to finite coordinates. -/
def specParseWater (doc : XForest) : List WaterFeature :=
  (docElementsByTagName doc "node").filterMap nodeFeature?
    ++ (docElementsByTagName doc "way").filterMap (centerFeature? .way)
    ++ (docElementsByTagName doc "relation").filterMap (centerFeature? .relation)

/-! ## Bounding boxes -/

structure Bbox where
  minlat : ℚ
  minlon : ℚ
  maxlat : ℚ
  maxlon : ℚ
deriving DecidableEq

/-- `bboxSpan`: `{lat: max(0, maxlat-minlat), lon: max(0, maxlon-minlon)}`. -/
def bboxSpan (b : Bbox) : ℚ × ℚ :=
  (max 0 (b.maxlat - b.minlat), max 0 (b.maxlon - b.minlon))

/-- `splitBboxIntoQuads`: bisect both ranges at their midpoints — SW, SE, NW, NE. -/
def splitBboxIntoQuads (b : Bbox) : List Bbox :=
  let midLat := (b.minlat + b.maxlat) / 2
  let midLon := (b.minlon + b.maxlon) / 2
  [ ⟨b.minlat, b.minlon, midLat, midLon⟩,
    ⟨b.minlat, midLon, midLat, b.maxlon⟩,
    ⟨midLat, b.minlon, b.maxlat, midLon⟩,
    ⟨midLat, midLon, b.maxlat, b.maxlon⟩ ]

/-- Geometric membership of a `(lat, lon)` point in a closed box (used to
state split exactness). -/
def memBbox (b : Bbox) (lat lon : ℚ) : Prop :=
  b.minlat ≤ lat ∧ lat ≤ b.maxlat ∧ b.minlon ≤ lon ∧ lon ≤ b.maxlon

instance (b : Bbox) (lat lon : ℚ) : Decidable (memBbox b lat lon) := by
  unfold memBbox; infer_instance

/-- Box area in square degrees, `lat span × lon span`. -/
def bboxArea (b : Bbox) : ℚ := (bboxSpan b).1 * (bboxSpan b).2

/-! ## Errors and the adaptive splitter -/

/-- The error channel of a fetch.  `upstream c` is the error thrown on a
non-2xx response, which carries `err.status = c`; `timeout` is the
abort-on-timeout error (no status field, and its message does not match
the `OSM API error: NNN` pattern); `generic` is any other failure
without a status. -/
inductive JsError where
  | timeout
  | upstream (code : ℤ)
  | generic
deriving DecidableEq

/-- `getStatusFromError`: read `err.status` when it is a number (the
message-regex fallback never fires in this model because both clients
always set the status field on upstream errors). -/
def getStatusFromError : JsError → Option ℤ
  | .upstream c => some c
  | _ => none

/-- The options consumed by `fetchOSMWaterPointsAdaptive` that affect
control flow (`timeoutMs`, `fetchImpl` and `source` are absorbed into
the fetch oracle). Defaults: `minSpan = 0.02`, `initialBackoffMs = 500`,
`maxBackoffMs = 4000`. -/
structure FetchOptions where
  minSpan : ℚ
  initialBackoffMs : ℚ
  maxBackoffMs : ℚ
deriving DecidableEq

/-- The observable events of one run: the shared `tilesFetched` counter,
the arguments of the `onProgress` calls in order, and the
`(attempt, duration)` of each executed `sleep` in order. -/
structure RunState where
  tilesFetched : ℕ
  progress : List ℕ
  sleeps : List (ℕ × ℚ)
deriving DecidableEq

abbrev TileResult := Except JsError (List WaterFeature) × RunState

/-- `if (pts && pts.length) all = all.concat(pts)`. -/
def appendPts (acc pts : List WaterFeature) : List WaterFeature :=
  if pts.isEmpty then acc else acc ++ pts

/-- Sequencing of one quadrant fetch inside the quadrant loop: a thrown
error (or fuel exhaustion) aborts the whole loop. -/
def bindStep (r : Option TileResult) (k : List WaterFeature → RunState → Option TileResult) :
    Option TileResult :=
  match r with
  | none => none
  | some (.error e, s) => some (.error e, s)
  | some (.ok pts, s) => k pts s

/-- `for (const q of quads) { const pts = await fetchTile(q, attempt+1); ... }`. -/
def runQuads (step : Bbox → RunState → Option TileResult) :
    List Bbox → RunState → List WaterFeature → Option TileResult
  | [], s, acc => some (.ok acc, s)
  | q :: qs, s, acc => bindStep (step q s) fun pts s' => runQuads step qs s' (appendPts acc pts)

/-- `backoff = Math.min(initialBackoffMs * Math.pow(2, attempt), maxBackoffMs)`. -/
def computeBackoff (cfg : FetchOptions) (att : ℕ) : ℚ :=
  min (cfg.initialBackoffMs * 2 ^ att) cfg.maxBackoffMs

/-- `if (backoff > 0) await sleep(backoff)` — record the executed sleep. -/
def recordBackoff (cfg : FetchOptions) (att : ℕ) (s : RunState) : RunState :=
  if 0 < computeBackoff cfg att then
    { s with sleeps := s.sleeps ++ [(att, computeBackoff cfg att)] }
  else s

/-- The retry test of `fetchTile`:
`(status === 400 || status === 429 || status === 504) && canSplit` with
`canSplit = span.lat > minSpan || span.lon > minSpan`. -/
def retryCondition (cfg : FetchOptions) (e : JsError) (tile : Bbox) : Prop :=
  (getStatusFromError e = some 400 ∨ getStatusFromError e = some 429
      ∨ getStatusFromError e = some 504)
  ∧ (cfg.minSpan < (bboxSpan tile).1 ∨ cfg.minSpan < (bboxSpan tile).2)

instance (cfg : FetchOptions) (e : JsError) (tile : Bbox) :
    Decidable (retryCondition cfg e tile) := by
  unfold retryCondition; infer_instance

/-- The inner recursion of `fetchOSMWaterPointsAdaptive`.  The fuel
argument bounds the recursion depth; `none` marks fuel exhaustion. -/
def fetchTile (cfg : FetchOptions) (oracle : Bbox → Except JsError XForest) :
    ℕ → Bbox → ℕ → RunState → Option TileResult
  | 0, _, _, _ => none
  | fuel + 1, tile, att, s =>
    match oracle tile with
    | .ok xml =>
      let tf := s.tilesFetched + 1
      some (.ok (parseOsmXmlForWater xml),
        { tilesFetched := tf, progress := s.progress ++ [tf], sleeps := s.sleeps })
    | .error e =>
      if retryCondition cfg e tile then
        runQuads (fun q s2 => fetchTile cfg oracle fuel q (att + 1) s2)
          (splitBboxIntoQuads tile) (recordBackoff cfg att s) []
      else
        some (.error e, s)
  termination_by structural fuel => fuel

/-- `fetchOSMWaterPointsAdaptive(bbox, onProgress, options)`: the root
call `fetchTile(bbox, 0)` on a fresh run state. -/
def fetchOSMWaterPointsAdaptive (cfg : FetchOptions) (oracle : Bbox → Except JsError XForest)
    (fuel : ℕ) (bbox : Bbox) : Option TileResult :=
  fetchTile cfg oracle fuel bbox 0 ⟨0, [], []⟩

/-- Sequential collection of the per-leaf feature lists of the quadrant
sub-trees (spec-side; same short-circuit order as `runQuads`). -/
def leafList (step : Bbox → Option (Except JsError (List (List WaterFeature)))) :
    List Bbox → Option (Except JsError (List (List WaterFeature)))
  | [] => some (.ok [])
  | q :: qs =>
    match step q with
    | none => none
    | some (.error e) => some (.error e)
    | some (.ok ls) =>
      match leafList step qs with
      | none => none
      | some (.error e) => some (.error e)
      | some (.ok rest) => some (.ok (ls ++ rest))

/-- Modelled from the spec: "the final feature set is the union … of all
features returned by every leaf fetch in the recursive split tree,
restricted to boxes that were not further split."  This computes the
list of per-leaf feature lists of the split tree, with the same control
flow as `fetchTile`. -/
def specLeafFeatures (cfg : FetchOptions) (oracle : Bbox → Except JsError XForest) :
    ℕ → Bbox → Option (Except JsError (List (List WaterFeature)))
  | 0, _ => none
  | fuel + 1, tile =>
    match oracle tile with
    | .ok xml => some (.ok [parseOsmXmlForWater xml])
    | .error e =>
      if retryCondition cfg e tile then
        leafList (specLeafFeatures cfg oracle fuel) (splitBboxIntoQuads tile)
      else some (.error e)
  termination_by structural fuel => fuel

/-- Spec-side classification: the retryable error kinds, `UpstreamStatus`
with code in {400, 429, 504}. -/
def retryableError (e : JsError) : Prop :=
  e = .upstream 400 ∨ e = .upstream 429 ∨ e = .upstream 504

instance (e : JsError) : Decidable (retryableError e) := by
  unfold retryableError; infer_instance

/-- Spec-side splittability: `span.lat > minSpan ∨ span.lon > minSpan`. -/
def splittable (cfg : FetchOptions) (b : Bbox) : Prop :=
  cfg.minSpan < (bboxSpan b).1 ∨ cfg.minSpan < (bboxSpan b).2

instance (cfg : FetchOptions) (b : Bbox) : Decidable (splittable cfg b) := by
  unfold splittable; infer_instance

/-- Depth measure for the always-failing recursion: number of halvings
(of either span) still separating the box from unsplittability. -/
def tileMeasure (m : ℚ) (b : Bbox) : ℕ :=
  ⌈(bboxSpan b).1 / m⌉₊ + ⌈(bboxSpan b).2 / m⌉₊

/-- The constant oracle of the termination scenario: every fetch fails
with HTTP 429. -/
def alwaysRateLimited : Bbox → Except JsError XForest :=
  fun _ => .error (.upstream 429)

/-! ## Query builder and map URL -/

/-- Rendering of an interpolated JS number into a template string,
modelled as an injective rendering of the rational value (integers
render as usual decimal numerals). -/
def qParam (q : ℚ) : String :=
  if q.den = 1 then intStr q.num else intStr q.num ++ "/" ++ natStr q.den
where
  digitChar (d : ℕ) : String :=
    ["0", "1", "2", "3", "4", "5", "6", "7", "8", "9"].getD d "?"
  natDigitsStr : ℕ → ℕ → String
    | 0, _ => ""
    | _ + 1, 0 => ""
    | fuel + 1, n + 1 => natDigitsStr fuel ((n + 1) / 10) ++ digitChar ((n + 1) % 10)
  natStr (n : ℕ) : String := if n = 0 then "0" else natDigitsStr (n + 1) n
  intStr (i : ℤ) : String := if i < 0 then "-" ++ natStr i.natAbs else natStr i.natAbs

/-- `const bboxPart = `${b.minlat},${b.minlon},${b.maxlat},${b.maxlon}``
(lat,lon order for Overpass). -/
def overpassBboxPart (b : Bbox) : String :=
  qParam b.minlat ++ "," ++ qParam b.minlon ++ "," ++ qParam b.maxlat ++ "," ++ qParam b.maxlon

/-- The Overpass QL template of `buildOverpassWaterQuery` as a function
of the interpolated bbox part. -/
def overpassQueryTemplate (bb : String) : String :=
  "\n    [out:xml][timeout:25];\n    (\n      node[\"amenity\"=\"drinking_water\"](" ++ bb
    ++ ");\n      node[\"natural\"=\"spring\"](" ++ bb
    ++ ");\n      node[\"man_made\"=\"water_tap\"](" ++ bb
    ++ ");\n      way[\"amenity\"=\"drinking_water\"](" ++ bb
    ++ ");\n      way[\"natural\"=\"spring\"](" ++ bb
    ++ ");\n      way[\"man_made\"=\"water_tap\"](" ++ bb
    ++ ");\n      relation[\"amenity\"=\"drinking_water\"](" ++ bb
    ++ ");\n      relation[\"natural\"=\"spring\"](" ++ bb
    ++ ");\n      relation[\"man_made\"=\"water_tap\"](" ++ bb
    ++ ");\n    );\n    out body center qt;\n  "

/-- `buildOverpassWaterQuery(b)`. -/
def buildOverpassWaterQuery (b : Bbox) : String :=
  overpassQueryTemplate (overpassBboxPart b)

/-- `const bboxParam = `${b.minlon},${b.minlat},${b.maxlon},${b.maxlat}``
(lon,lat order per the raw OSM map API). -/
def osmMapBboxParam (b : Bbox) : String :=
  qParam b.minlon ++ "," ++ qParam b.minlat ++ "," ++ qParam b.maxlon ++ "," ++ qParam b.maxlat

/-- The GET URL built by `fetchOsmMapXml`. -/
def osmMapUrl (b : Bbox) : String :=
  "https://api.openstreetmap.org/api/0.6/map?bbox=" ++ osmMapBboxParam b

/-- Spec-side rendering of an ordered coordinate list as the
comma-separated bbox parameter. -/
def renderCommaList : List ℚ → String
  | [] => ""
  | [q] => qParam q
  | q :: rest => qParam q ++ "," ++ renderCommaList rest

/-- Spec-side box ordering for the Overpass query string. -/
def specOverpassOrder (b : Bbox) : List ℚ := [b.minlat, b.minlon, b.maxlat, b.maxlon]

/-- Spec-side box ordering for the raw map-data GET URL. -/
def specMapApiOrder (b : Bbox) : List ℚ := [b.minlon, b.minlat, b.maxlon, b.maxlat]

/-! ## Planar projection and proximity filter

The proximity filter works on JS floats through `Math.log`/`Math.tan`;
it is embedded over `ℝ`.  Route coordinates and feature positions enter
as the same rationals that flow through the rest of the pipeline and are
coerced into `ℝ` at the boundary. -/

noncomputable section

def EARTH_RADIUS_M : ℝ := 6378137

/-- `lonLatToWebMercator(lon, lat)`: `x = R·λ`, `y = R·ln(tan(π/4 + φ/2))`. -/
def lonLatToWebMercator (lon lat : ℝ) : ℝ × ℝ :=
  (EARTH_RADIUS_M * (lon * Real.pi / 180),
   EARTH_RADIUS_M * Real.log (Real.tan (Real.pi / 4 + lat * Real.pi / 180 / 2)))

/-- `abLen2 || 1`: the squared segment length with the divide-by-zero guard. -/
def guardedLen2 (l : ℝ) : ℝ := if l = 0 then 1 else l

/-- Euclidean distance between two planar points (statement helper). -/
def planarDist (u v : ℝ × ℝ) : ℝ :=
  Real.sqrt ((u.1 - v.1) * (u.1 - v.1) + (u.2 - v.2) * (u.2 - v.2))

/-- `pointToSegmentDistanceMeters(p, a, b)` with `p`, `a`, `b` given as
`[lon, lat]` pairs: project all three, parametrize the segment, clamp
`t` to `[0,1]`, return the Euclidean distance to the clamped position. -/
def pointToSegmentDistanceMeters (p a b : ℝ × ℝ) : ℝ :=
  let pm := lonLatToWebMercator p.1 p.2
  let am := lonLatToWebMercator a.1 a.2
  let bm := lonLatToWebMercator b.1 b.2
  let abx := bm.1 - am.1
  let aby := bm.2 - am.2
  let apx := pm.1 - am.1
  let apy := pm.2 - am.2
  let abLen2 := guardedLen2 (abx * abx + aby * aby)
  let t := max 0 (min 1 ((apx * abx + apy * aby) / abLen2))
  let cx := am.1 + t * abx
  let cy := am.2 + t * aby
  Real.sqrt ((pm.1 - cx) * (pm.1 - cx) + (pm.2 - cy) * (pm.2 - cy))

def rqToPlane (c : ℚ × ℚ) : ℝ × ℝ := ((c.1 : ℝ), (c.2 : ℝ))

/-- `minDistancePointToLineStringMeters`: running minimum (starting at
`Infinity`, modelled by `⊤`) of the distances to the consecutive
segment pairs of one linestring (coordinates are `(lon, lat)`). -/
def minDistancePointToLineStringMeters (pt : ℝ × ℝ) (coords : List (ℚ × ℚ)) : WithTop ℝ :=
  (coords.zip coords.tail).foldl
    (fun m ab =>
      let d : WithTop ℝ := (pointToSegmentDistanceMeters pt (rqToPlane ab.1) (rqToPlane ab.2) : ℝ)
      if d < m then d else m)
    ⊤

end

/-! GeoJSON route model, as consumed by `extractRouteLineStrings`. -/

mutual
inductive Geometry where
  | lineString (coords : List (ℚ × ℚ))
  | multiLineString (lss : List (List (ℚ × ℚ)))
  | geometryCollection (gs : GeometryList)
  | pointGeom (c : ℚ × ℚ)
inductive GeometryList where
  | nil
  | cons (g : Geometry) (rest : GeometryList)
end

/-- A route document: a FeatureCollection (each feature's geometry may be
null) or a bare geometry object. -/
inductive GeoRoute where
  | featureCollection (features : List (Option Geometry))
  | bare (g : Geometry)

/-- `geojson.type && geojson.coordinates`: a bare GeometryCollection has
no `coordinates` member, so the bare branch skips it. -/
def geomHasCoordinates : Geometry → Bool
  | .lineString _ => true
  | .multiLineString _ => true
  | .pointGeom _ => true
  | .geometryCollection _ => false

mutual
/-- `walkGeometry`: collect LineStrings (and MultiLineString members) of
length ≥ 2, recursing into GeometryCollections. -/
def walkGeometry : Geometry → List (List (ℚ × ℚ))
  | .lineString cs => if 2 ≤ cs.length then [cs] else []
  | .multiLineString lss => lss.filter (fun ls => 2 ≤ ls.length)
  | .geometryCollection gs => walkGeometryList gs
  | .pointGeom _ => []
def walkGeometryList : GeometryList → List (List (ℚ × ℚ))
  | .nil => []
  | .cons g rest => walkGeometry g ++ walkGeometryList rest
end

/-- `extractRouteLineStrings(geojson)`. -/
def extractRouteLineStrings : GeoRoute → List (List (ℚ × ℚ))
  | .featureCollection fs =>
    fs.foldl
      (fun acc og => match og with
        | none => acc
        | some g => acc ++ walkGeometry g)
      []
  | .bare g => if geomHasCoordinates g then walkGeometry g else []

noncomputable section

/-- The per-feature linestring scan of `filterPointsNearRoute`:
`if (d < min) min = d; if (min <= maxMeters) break`. -/
def scanLines (pt : ℝ × ℝ) (r : ℝ) : List (List (ℚ × ℚ)) → WithTop ℝ → WithTop ℝ
  | [], m => m
  | ls :: rest, m =>
    let d := minDistancePointToLineStringMeters pt ls
    let m' := if d < m then d else m
    if m' ≤ (r : WithTop ℝ) then m' else scanLines pt r rest m'

/-- `filterPointsNearRoute(geojsonRoute, points, maxMeters)`.  A feature's
position is `p.lat ?? p.center?.lat` (and same for `lon`), i.e. the
`pos` field of the model; features without a finite position are
skipped. -/
def filterPointsNearRoute (route : GeoRoute) (points : List WaterFeature) (maxMeters : ℝ) :
    List WaterFeature :=
  let lineStrings := extractRouteLineStrings route
  if lineStrings.isEmpty then [] else
  points.foldl
    (fun acc p =>
      match p.pos with
      | none => acc
      | some c =>
        let pt : ℝ × ℝ := ((c.2 : ℝ), (c.1 : ℝ))
        if scanLines pt maxMeters lineStrings ⊤ ≤ (maxMeters : WithTop ℝ) then acc ++ [p]
        else acc)
    []

/-- Spec-side minimum distance of a planar point to the whole route: the
minimum over all route linestrings and all their consecutive segment
pairs (`⊤` when there are none). -/
def minDistanceToRoute (route : GeoRoute) (pt : ℝ × ℝ) : WithTop ℝ :=
  (extractRouteLineStrings route).foldl
    (fun m ls => min m (minDistancePointToLineStringMeters pt ls)) ⊤

/-- Spec-side filter predicate: the feature has a finite resolvable
position whose minimum distance to the route is ≤ the radius. -/
def nearPredicate (route : GeoRoute) (r : ℝ) (p : WaterFeature) : Prop :=
  ∃ c : ℚ × ℚ, p.pos = some c ∧
    minDistanceToRoute route ((c.2 : ℝ), (c.1 : ℝ)) ≤ (r : WithTop ℝ)

/-- Spec-side restatement of the proximity filter. -/
def filterNearSpec (route : GeoRoute) (points : List WaterFeature) (r : ℝ) :
    List WaterFeature :=
  points.filter (fun p => @decide (nearPredicate route r p) (Classical.propDecidable _))

end

/-! ## Scenario constants -/

/-- The option defaults: `minSpan 0.02`, `initialBackoffMs 500`, `maxBackoffMs 4000`. -/
def defaultOptions : FetchOptions := ⟨1/50, 500, 4000⟩

/-- `<tag k="amenity" v="drinking_water"/>`. -/
def tagDrinking : XElem := .mk "tag" [("k", "amenity"), ("v", "drinking_water")] .nil

/-- A response document with a single water node of the given id. -/
def nodeDoc (i : String) : XForest :=
  .cons (.mk "node" [("id", i), ("lat", "37"), ("lon", "-122")] (.cons tagDrinking .nil)) .nil

/-- The feature parsed from `nodeDoc`. -/
def nodeDocFeature (i : ℚ) : WaterFeature :=
  ⟨some i, [("amenity", some "drinking_water")], .node, some (37, -122)⟩

/-- The scenario box `{minLat:37.0, minLon:-122.0, maxLat:37.1, maxLon:-121.9}`. -/
def scenarioBox : Bbox := ⟨37, -122, 371/10, -1219/10⟩

def scenarioSW : Bbox := ⟨37, -122, 741/20, -2439/20⟩
def scenarioSE : Bbox := ⟨37, -2439/20, 741/20, -1219/10⟩
def scenarioNW : Bbox := ⟨741/20, -122, 371/10, -2439/20⟩
def scenarioNE : Bbox := ⟨741/20, -2439/20, 371/10, -1219/10⟩

/-- Scenario upstream: HTTP 429 for the full box, then HTTP 200 with one
node feature for each of the four quadrants. -/
def scenarioOracle : Bbox → Except JsError XForest := fun b =>
  if b = scenarioBox then .error (.upstream 429)
  else if b = scenarioSW then .ok (nodeDoc "1")
  else if b = scenarioSE then .ok (nodeDoc "2")
  else if b = scenarioNW then .ok (nodeDoc "3")
  else if b = scenarioNE then .ok (nodeDoc "4")
  else .error .generic

/-- A splittable demo box with integer corners. -/
def dupBox : Bbox := ⟨0, 0, 2, 2⟩

/-- Upstream that 429s the full box and returns the same node (id 7) for
every sub-box — overlapping leaf responses. -/
def dupOracle : Bbox → Except JsError XForest := fun b =>
  if b = dupBox then .error (.upstream 429) else .ok (nodeDoc "7")

/-- Upstream that times out on every fetch. -/
def timeoutOracle : Bbox → Except JsError XForest := fun _ => .error .timeout

/-- A water node element with no `lat` attribute. -/
def nodeMissingLat : XForest :=
  .cons (.mk "node" [("id", "9"), ("lon", "5")] (.cons tagDrinking .nil)) .nil

/-! ## Helper lemmas -/

theorem max_zero_half (d : ℚ) : max 0 (d / 2) = max 0 d / 2 := by
  rcases le_total d 0 with h | h
  · rw [max_eq_left (by linarith), max_eq_left h]
    norm_num
  · rw [max_eq_right (by linarith), max_eq_right h]

theorem bboxSpan_quad {b q : Bbox} (hq : q ∈ splitBboxIntoQuads b) :
    bboxSpan q = ((bboxSpan b).1 / 2, (bboxSpan b).2 / 2) := by
  simp only [splitBboxIntoQuads, List.mem_cons, List.mem_singleton, List.not_mem_nil, or_false]
    at hq
  have e1 : (b.minlat + b.maxlat) / 2 - b.minlat = (b.maxlat - b.minlat) / 2 := by ring
  have e2 : b.maxlat - (b.minlat + b.maxlat) / 2 = (b.maxlat - b.minlat) / 2 := by ring
  have e3 : (b.minlon + b.maxlon) / 2 - b.minlon = (b.maxlon - b.minlon) / 2 := by ring
  have e4 : b.maxlon - (b.minlon + b.maxlon) / 2 = (b.maxlon - b.minlon) / 2 := by ring
  rcases hq with rfl | rfl | rfl | rfl <;>
    simp only [bboxSpan, Prod.mk.injEq] <;>
    constructor <;>
    simp only [e1, e2, e3, e4, max_zero_half]

theorem bboxArea_quad {b q : Bbox} (hq : q ∈ splitBboxIntoQuads b) :
    bboxArea q = bboxArea b / 4 := by
  have h := bboxSpan_quad hq
  unfold bboxArea
  rw [h]
  dsimp only
  ring

theorem nat_ceil_half_le (x : ℚ) (hx : 0 ≤ x) : ⌈x / 2⌉₊ ≤ ⌈x⌉₊ :=
  Nat.ceil_mono (by linarith)

theorem nat_ceil_half_lt (x : ℚ) (hx : 1 < x) : ⌈x / 2⌉₊ < ⌈x⌉₊ := by
  have h2 : 1 < ⌈x⌉₊ := by
    rw [Nat.lt_ceil]; exact_mod_cast hx
  have hle : x ≤ (⌈x⌉₊ : ℚ) := Nat.le_ceil x
  have hstep : ⌈x / 2⌉₊ ≤ ⌈x⌉₊ - 1 := by
    rw [Nat.ceil_le]
    have hc : ((⌈x⌉₊ - 1 : ℕ) : ℚ) = (⌈x⌉₊ : ℚ) - 1 := by
      have h1 : 1 ≤ ⌈x⌉₊ := by omega
      push_cast [Nat.cast_sub h1]
      ring
    rw [hc]
    have : (2 : ℚ) ≤ (⌈x⌉₊ : ℚ) := by exact_mod_cast h2
    linarith
  omega

theorem bboxSpan_nonneg (b : Bbox) : 0 ≤ (bboxSpan b).1 ∧ 0 ≤ (bboxSpan b).2 :=
  ⟨le_max_left 0 _, le_max_left 0 _⟩

theorem tileMeasure_quad_lt {m : ℚ} (hm : 0 < m) {b q : Bbox}
    (hsplit : m < (bboxSpan b).1 ∨ m < (bboxSpan b).2) (hq : q ∈ splitBboxIntoQuads b) :
    tileMeasure m q < tileMeasure m b := by
  have hspan := bboxSpan_quad hq
  have h1 : 0 ≤ (bboxSpan b).1 := (bboxSpan_nonneg b).1
  have h2 : 0 ≤ (bboxSpan b).2 := (bboxSpan_nonneg b).2
  unfold tileMeasure
  rw [hspan]
  dsimp only
  have e1 : (bboxSpan b).1 / 2 / m = (bboxSpan b).1 / m / 2 := by ring
  have e2 : (bboxSpan b).2 / 2 / m = (bboxSpan b).2 / m / 2 := by ring
  rw [e1, e2]
  rcases hsplit with h | h
  · have hlt : ⌈(bboxSpan b).1 / m / 2⌉₊ < ⌈(bboxSpan b).1 / m⌉₊ :=
      nat_ceil_half_lt _ ((one_lt_div hm).mpr h)
    have hle : ⌈(bboxSpan b).2 / m / 2⌉₊ ≤ ⌈(bboxSpan b).2 / m⌉₊ :=
      nat_ceil_half_le _ (div_nonneg h2 hm.le)
    omega
  · have hle : ⌈(bboxSpan b).1 / m / 2⌉₊ ≤ ⌈(bboxSpan b).1 / m⌉₊ :=
      nat_ceil_half_le _ (div_nonneg h1 hm.le)
    have hlt : ⌈(bboxSpan b).2 / m / 2⌉₊ < ⌈(bboxSpan b).2 / m⌉₊ :=
      nat_ceil_half_lt _ ((one_lt_div hm).mpr h)
    omega

/-- C4: `splitBboxIntoQuads` returns exactly four boxes (SW, SE, NW, NE)
bisecting both ranges at their midpoints; their union covers the parent
exactly, overlap is confined to the shared midpoint lines, and each
quadrant's area is exactly one quarter of the parent's. -/
theorem splitBboxIntoQuads_exact (b : Bbox) (lat lon : ℚ) (q q1 q2 : Bbox)
    (hlat : b.minlat ≤ b.maxlat) (hlon : b.minlon ≤ b.maxlon)
    (hq : q ∈ splitBboxIntoQuads b) (hq1 : q1 ∈ splitBboxIntoQuads b)
    (hq2 : q2 ∈ splitBboxIntoQuads b) (hne : q1 ≠ q2) :
    (splitBboxIntoQuads b).length = 4
    ∧ (memBbox b lat lon ↔ ∃ q' ∈ splitBboxIntoQuads b, memBbox q' lat lon)
    ∧ bboxArea q = bboxArea b / 4
    ∧ (memBbox q1 lat lon → memBbox q2 lat lon →
        lat = (b.minlat + b.maxlat) / 2 ∨ lon = (b.minlon + b.maxlon) / 2) := by
  refine ⟨rfl, ⟨?_, ?_⟩, bboxArea_quad hq, ?_⟩
  · rintro ⟨h1, h2, h3, h4⟩
    rcases le_total lat ((b.minlat + b.maxlat) / 2) with hl | hl <;>
      rcases le_total lon ((b.minlon + b.maxlon) / 2) with ho | ho
    · exact ⟨⟨b.minlat, b.minlon, (b.minlat + b.maxlat) / 2, (b.minlon + b.maxlon) / 2⟩,
        by simp [splitBboxIntoQuads], ⟨h1, hl, h3, ho⟩⟩
    · exact ⟨⟨b.minlat, (b.minlon + b.maxlon) / 2, (b.minlat + b.maxlat) / 2, b.maxlon⟩,
        by simp [splitBboxIntoQuads], ⟨h1, hl, ho, h4⟩⟩
    · exact ⟨⟨(b.minlat + b.maxlat) / 2, b.minlon, b.maxlat, (b.minlon + b.maxlon) / 2⟩,
        by simp [splitBboxIntoQuads], ⟨hl, h2, h3, ho⟩⟩
    · exact ⟨⟨(b.minlat + b.maxlat) / 2, (b.minlon + b.maxlon) / 2, b.maxlat, b.maxlon⟩,
        by simp [splitBboxIntoQuads], ⟨hl, h2, ho, h4⟩⟩
  · rintro ⟨q', hq', hm⟩
    simp only [splitBboxIntoQuads, List.mem_cons, List.mem_singleton, List.not_mem_nil,
      or_false] at hq'
    rcases hq' with rfl | rfl | rfl | rfl <;>
      obtain ⟨m1, m2, m3, m4⟩ := hm <;>
      dsimp only at m1 m2 m3 m4 <;>
      exact ⟨by linarith, by linarith, by linarith, by linarith⟩
  · simp only [splitBboxIntoQuads, List.mem_cons, List.mem_singleton, List.not_mem_nil,
      or_false] at hq1 hq2
    rcases hq1 with rfl | rfl | rfl | rfl <;> rcases hq2 with rfl | rfl | rfl | rfl <;>
      first
      | exact absurd rfl hne
      | (intro hm1 hm2
         obtain ⟨a1, a2, a3, a4⟩ := hm1
         obtain ⟨c1, c2, c3, c4⟩ := hm2
         dsimp only at a1 a2 a3 a4 c1 c2 c3 c4
         first
         | (left; linarith)
         | (right; linarith))

/-- C4 witness: the theorem applied to the box `(0,0)–(2,2)`, the point
`(1,1)`, the SW quadrant and the SW/NE quadrant pair. -/
theorem splitBboxIntoQuads_exact_witness :
    (splitBboxIntoQuads ⟨0, 0, 2, 2⟩).length = 4
    ∧ (memBbox ⟨0, 0, 2, 2⟩ 1 1 ↔ ∃ q' ∈ splitBboxIntoQuads ⟨0, 0, 2, 2⟩, memBbox q' 1 1)
    ∧ bboxArea ⟨0, 0, 1, 1⟩ = bboxArea ⟨0, 0, 2, 2⟩ / 4
    ∧ (memBbox ⟨0, 0, 1, 1⟩ 1 1 → memBbox ⟨1, 1, 2, 2⟩ 1 1 →
        (1 : ℚ) = ((0 : ℚ) + 2) / 2 ∨ (1 : ℚ) = ((0 : ℚ) + 2) / 2) :=
  splitBboxIntoQuads_exact ⟨0, 0, 2, 2⟩ 1 1 ⟨0, 0, 1, 1⟩ ⟨0, 0, 1, 1⟩ ⟨1, 1, 2, 2⟩
    (by norm_num) (by norm_num) (by decide) (by decide) (by decide) (by decide)

/-- C9: the Overpass query string interpolates the box in
`(minLat, minLon, maxLat, maxLon)` order while the raw map-data GET URL
uses `(minLon, minLat, maxLon, maxLat)`; each call site keeps its own
upstream's convention, and the two orderings produce different request
strings. -/
theorem bbox_order_conventions (b : Bbox) :
    overpassBboxPart b = renderCommaList (specOverpassOrder b)
    ∧ osmMapBboxParam b = renderCommaList (specMapApiOrder b)
    ∧ buildOverpassWaterQuery b = overpassQueryTemplate (renderCommaList (specOverpassOrder b))
    ∧ osmMapUrl b = "https://api.openstreetmap.org/api/0.6/map?bbox="
        ++ renderCommaList (specMapApiOrder b)
    ∧ renderCommaList (specOverpassOrder ⟨1, 2, 3, 4⟩)
        ≠ renderCommaList (specMapApiOrder ⟨1, 2, 3, 4⟩) := by
  have h1 : overpassBboxPart b = renderCommaList (specOverpassOrder b) := by
    simp [overpassBboxPart, renderCommaList, specOverpassOrder, String.append_assoc]
  have h2 : osmMapBboxParam b = renderCommaList (specMapApiOrder b) := by
    simp [osmMapBboxParam, renderCommaList, specMapApiOrder, String.append_assoc]
  refine ⟨h1, h2, ?_, ?_, ?_⟩
  · rw [buildOverpassWaterQuery, h1]
  · rw [osmMapUrl, h2]
  · decide

theorem fetchTile_succ_ok (cfg : FetchOptions) (oracle : Bbox → Except JsError XForest)
    (fuel : ℕ) (tile : Bbox) (att : ℕ) (s : RunState) (xml : XForest)
    (h : oracle tile = .ok xml) :
    fetchTile cfg oracle (fuel + 1) tile att s
      = some (.ok (parseOsmXmlForWater xml),
          ⟨s.tilesFetched + 1, s.progress ++ [s.tilesFetched + 1], s.sleeps⟩) := by
  simp [fetchTile, h]

theorem fetchTile_succ_error_retry (cfg : FetchOptions) (oracle : Bbox → Except JsError XForest)
    (fuel : ℕ) (tile : Bbox) (att : ℕ) (s : RunState) (e : JsError)
    (h : oracle tile = .error e) (hrc : retryCondition cfg e tile) :
    fetchTile cfg oracle (fuel + 1) tile att s
      = runQuads (fun q s2 => fetchTile cfg oracle fuel q (att + 1) s2)
          (splitBboxIntoQuads tile) (recordBackoff cfg att s) [] := by
  simp [fetchTile, h, hrc]

theorem fetchTile_succ_error_throw (cfg : FetchOptions) (oracle : Bbox → Except JsError XForest)
    (fuel : ℕ) (tile : Bbox) (att : ℕ) (s : RunState) (e : JsError)
    (h : oracle tile = .error e) (hrc : ¬ retryCondition cfg e tile) :
    fetchTile cfg oracle (fuel + 1) tile att s = some (.error e, s) := by
  simp [fetchTile, h, hrc]

theorem runQuads_cons_error (step : Bbox → RunState → Option TileResult)
    (q : Bbox) (rest : List Bbox) (s : RunState) (acc : List WaterFeature)
    (e : JsError) (s' : RunState) (h : step q s = some (.error e, s')) :
    runQuads step (q :: rest) s acc = some (.error e, s') := by
  simp [runQuads, bindStep, h]

/-- The code's retry test coincides with the spec-side classification:
retryable error kind (status ∈ {400, 429, 504}) AND still splittable. -/
theorem retryCondition_iff (cfg : FetchOptions) (e : JsError) (tile : Bbox) :
    retryCondition cfg e tile ↔ retryableError e ∧ splittable cfg tile := by
  cases e <;>
    simp [retryCondition, retryableError, splittable, getStatusFromError]

theorem fetchTile_always429 (cfg : FetchOptions) (hm : 0 < cfg.minSpan) :
    ∀ fuel tile att s, tileMeasure cfg.minSpan tile < fuel →
      ∃ s', fetchTile cfg alwaysRateLimited fuel tile att s
        = some (.error (.upstream 429), s') := by
  intro fuel
  induction fuel using Nat.strong_induction_on with
  | _ fuel ih =>
    intro tile att s hfuel
    obtain ⟨n, rfl⟩ : ∃ n, fuel = n + 1 := ⟨fuel - 1, by omega⟩
    have horacle : alwaysRateLimited tile = .error (.upstream 429) := rfl
    by_cases hrc : retryCondition cfg (.upstream 429) tile
    · set q0 : Bbox :=
        ⟨tile.minlat, tile.minlon, (tile.minlat + tile.maxlat) / 2,
          (tile.minlon + tile.maxlon) / 2⟩ with hq0def
      have hmem : q0 ∈ splitBboxIntoQuads tile := by
        simp [splitBboxIntoQuads, hq0def]
      have hlt : tileMeasure cfg.minSpan q0 < tileMeasure cfg.minSpan tile :=
        tileMeasure_quad_lt hm hrc.2 hmem
      obtain ⟨s', heq⟩ :=
        ih n (by omega) q0 (att + 1) (recordBackoff cfg att s) (by omega)
      refine ⟨s', ?_⟩
      rw [fetchTile_succ_error_retry cfg _ n tile att s _ horacle hrc]
      obtain ⟨rest, hlist⟩ : ∃ rest, splitBboxIntoQuads tile = q0 :: rest := ⟨_, rfl⟩
      rw [hlist]
      exact runQuads_cons_error _ _ _ _ _ _ _ heq
    · exact ⟨s, fetchTile_succ_error_throw cfg _ n tile att s _ horacle hrc⟩

/-- C3: with every fetch failing with HTTP 429 and `minSpan > 0`, the
recursion is bounded: each quadrant has exactly half of both spans, the
depth is bounded by `tileMeasure`, and once the fuel covers that bound
the run terminates by propagating the 429 error (it never runs out of
fuel, i.e. never loops indefinitely). -/
theorem always429_resolve_fails_bounded (cfg : FetchOptions) (fuel : ℕ)
    (tile q : Bbox) (att : ℕ) (s : RunState)
    (hm : 0 < cfg.minSpan) (hq : q ∈ splitBboxIntoQuads tile)
    (hfuel : tileMeasure cfg.minSpan tile < fuel) :
    bboxSpan q = ((bboxSpan tile).1 / 2, (bboxSpan tile).2 / 2)
    ∧ ∃ s', fetchTile cfg alwaysRateLimited fuel tile att s
        = some (.error (.upstream 429), s') :=
  ⟨bboxSpan_quad hq, fetchTile_always429 cfg hm fuel tile att s hfuel⟩

/-- C3 witness: the box `(0,0)–(2,2)` with the default options; its
measure is 200, so fuel 201 suffices and the run fails with 429. -/
theorem always429_resolve_fails_bounded_witness :
    bboxSpan ⟨0, 0, 1, 1⟩ = ((bboxSpan dupBox).1 / 2, (bboxSpan dupBox).2 / 2)
    ∧ ∃ s', fetchTile defaultOptions alwaysRateLimited 201 dupBox 0 ⟨0, [], []⟩
        = some (.error (.upstream 429), s') :=
  always429_resolve_fails_bounded defaultOptions 201 dupBox ⟨0, 0, 1, 1⟩ 0 ⟨0, [], []⟩
    (by decide) (by decide) (by decide)

/-- C1 (amended): on a failed fetch, `resolve` recovers locally (backoff
record, quadrant split, sequential recursive retry) exactly when the
failure is an `UpstreamStatus` in {400, 429, 504} AND the box is still
splittable; every other failure — including `Timeout` — and a retryable
status on an unsplittable box propagate to the caller unchanged (no
partial result, state untouched), and when such a failure hits the very
first fetch the whole `resolve` call rejects with it and `onProgress`
was never called. -/
theorem fetchTile_recovery_classification
    (cfg : FetchOptions) (oracle : Bbox → Except JsError XForest)
    (fuel : ℕ) (bbox : Bbox) (att : ℕ) (s : RunState) (e : JsError)
    (h : oracle bbox = .error e) :
    (retryableError e ∧ splittable cfg bbox →
      fetchTile cfg oracle (fuel + 1) bbox att s
        = runQuads (fun q s2 => fetchTile cfg oracle fuel q (att + 1) s2)
            (splitBboxIntoQuads bbox) (recordBackoff cfg att s) [])
    ∧ (¬ (retryableError e ∧ splittable cfg bbox) →
      fetchTile cfg oracle (fuel + 1) bbox att s = some (.error e, s))
    ∧ ¬ retryableError JsError.timeout
    ∧ (¬ (retryableError e ∧ splittable cfg bbox) →
        ∀ r s', fetchOSMWaterPointsAdaptive cfg oracle (fuel + 1) bbox = some (r, s') →
          r = .error e ∧ s'.progress = []) := by
  refine ⟨?_, ?_, ?_, ?_⟩
  · intro hcond
    exact fetchTile_succ_error_retry cfg oracle fuel bbox att s e h
      ((retryCondition_iff cfg e bbox).mpr hcond)
  · intro hcond
    exact fetchTile_succ_error_throw cfg oracle fuel bbox att s e h
      (fun hc => hcond ((retryCondition_iff cfg e bbox).mp hc))
  · intro hr
    rcases hr with hti | hti | hti <;> exact JsError.noConfusion hti
  · intro hcond r s' hres
    have heq : fetchTile cfg oracle (fuel + 1) bbox 0 ⟨0, [], []⟩
        = some (.error e, ⟨0, [], []⟩) :=
      fetchTile_succ_error_throw cfg oracle fuel bbox 0 ⟨0, [], []⟩ e h
        (fun hc => hcond ((retryCondition_iff cfg e bbox).mp hc))
    rw [fetchOSMWaterPointsAdaptive, heq] at hres
    have h1 : (Except.error e : Except JsError (List WaterFeature)) = r
        ∧ (⟨0, [], []⟩ : RunState) = s' := by
      have := Option.some.inj hres
      exact ⟨congrArg Prod.fst this, congrArg Prod.snd this⟩
    exact ⟨h1.1.symm, by rw [← h1.2]⟩

/-- C1 witness: the theorem applied to an upstream-500 failure on the
splittable box `(0,0)–(2,2)` under the default options. -/
theorem fetchTile_recovery_classification_witness :
    (retryableError (.upstream 500) ∧ splittable defaultOptions dupBox →
      fetchTile defaultOptions (fun _ => .error (.upstream 500)) 5 dupBox 0 ⟨0, [], []⟩
        = runQuads
            (fun q s2 =>
              fetchTile defaultOptions (fun _ => .error (.upstream 500)) 4 q 1 s2)
            (splitBboxIntoQuads dupBox) (recordBackoff defaultOptions 0 ⟨0, [], []⟩) [])
    ∧ (¬ (retryableError (.upstream 500) ∧ splittable defaultOptions dupBox) →
      fetchTile defaultOptions (fun _ => .error (.upstream 500)) 5 dupBox 0 ⟨0, [], []⟩
        = some (.error (.upstream 500), ⟨0, [], []⟩))
    ∧ ¬ retryableError JsError.timeout
    ∧ (¬ (retryableError (.upstream 500) ∧ splittable defaultOptions dupBox) →
        ∀ r s',
          fetchOSMWaterPointsAdaptive defaultOptions (fun _ => .error (.upstream 500)) 5 dupBox
            = some (r, s') → r = .error (.upstream 500) ∧ s'.progress = []) :=
  fetchTile_recovery_classification defaultOptions (fun _ => .error (.upstream 500))
    4 dupBox 0 ⟨0, [], []⟩ (.upstream 500) rfl

/-- C1 counterexample: a `Timeout` on a splittable box is NOT recovered
by split-and-retry — the run propagates it unchanged with untouched
state (no sleep recorded, no quadrant fetched, no progress), refuting
the claim that `Timeout` is recovered like the retryable statuses. -/
theorem timeout_not_recovered_counterexample :
    splittable defaultOptions dupBox
    ∧ fetchOSMWaterPointsAdaptive defaultOptions timeoutOracle 5 dupBox
        = some (.error .timeout, ⟨0, [], []⟩) :=
  ⟨by decide, by rfl⟩

/-- C6: for the box `{37.0, -122.0, 37.1, -121.9}`, with 429 on the full
box then one node per quadrant, `resolve` returns exactly the 4 features
in quadrant order SW, SE, NW, NE and `onProgress` sees counts 1,2,3,4. -/
theorem scenario_429_then_four_quadrants :
    fetchOSMWaterPointsAdaptive defaultOptions scenarioOracle 2 scenarioBox
      = some (.ok [nodeDocFeature 1, nodeDocFeature 2, nodeDocFeature 3, nodeDocFeature 4],
          ⟨4, [1, 2, 3, 4], [(0, 500)]⟩)
    ∧ splitBboxIntoQuads scenarioBox = [scenarioSW, scenarioSE, scenarioNW, scenarioNE]
    ∧ scenarioOracle scenarioSW = .ok (nodeDoc "1")
    ∧ scenarioOracle scenarioSE = .ok (nodeDoc "2")
    ∧ scenarioOracle scenarioNW = .ok (nodeDoc "3")
    ∧ scenarioOracle scenarioNE = .ok (nodeDoc "4") := by
  refine ⟨?_, by decide, by rfl, by rfl, by rfl, by rfl⟩
  rfl

theorem appendPts_eq (acc pts : List WaterFeature) : appendPts acc pts = acc ++ pts := by
  unfold appendPts
  split
  · next h => rw [List.isEmpty_iff.mp h, List.append_nil]
  · rfl

theorem runQuads_ok_leafList
    (step : Bbox → RunState → Option TileResult)
    (stepL : Bbox → Option (Except JsError (List (List WaterFeature))))
    (hstep : ∀ q s fs s', step q s = some (.ok fs, s') →
      ∃ ls, stepL q = some (.ok ls) ∧ fs = ls.flatten) :
    ∀ (qs : List Bbox) (s : RunState) (acc fs : List WaterFeature) (s' : RunState),
      runQuads step qs s acc = some (.ok fs, s') →
      ∃ ls, leafList stepL qs = some (.ok ls) ∧ fs = acc ++ ls.flatten := by
  intro qs
  induction qs with
  | nil =>
    intro s acc fs s' h
    simp only [runQuads, Option.some.injEq, Prod.mk.injEq] at h
    obtain ⟨h1, -⟩ := h
    exact ⟨[], by simp [leafList], by simp [← Except.ok.inj h1]⟩
  | cons q qs ih =>
    intro s acc fs s' h
    rw [runQuads] at h
    cases hq : step q s with
    | none => rw [hq] at h; exact absurd h (by simp [bindStep])
    | some r =>
      obtain ⟨res, s1⟩ := r
      cases res with
      | error e =>
        rw [hq] at h
        simp only [bindStep, Option.some.injEq, Prod.mk.injEq] at h
        exact absurd h.1 (by simp)
      | ok pts =>
        rw [hq] at h
        simp only [bindStep] at h
        obtain ⟨ls1, hL1, hpts⟩ := hstep q s pts s1 hq
        obtain ⟨ls2, hL2, hfs⟩ := ih s1 (appendPts acc pts) fs s' h
        refine ⟨ls1 ++ ls2, ?_, ?_⟩
        · rw [leafList, hL1, hL2]
        · rw [hfs, appendPts_eq, hpts]
          simp [List.flatten_append, List.append_assoc]

theorem fetchTile_ok_eq_leaf_concat (cfg : FetchOptions)
    (oracle : Bbox → Except JsError XForest) :
    ∀ (fuel : ℕ) (tile : Bbox) (att : ℕ) (s : RunState) (fs : List WaterFeature)
      (s' : RunState),
      fetchTile cfg oracle fuel tile att s = some (.ok fs, s') →
      ∃ ls, specLeafFeatures cfg oracle fuel tile = some (.ok ls) ∧ fs = ls.flatten := by
  intro fuel
  induction fuel with
  | zero => intro tile att s fs s' h; exact absurd h (by simp [fetchTile])
  | succ n ih =>
    intro tile att s fs s' h
    cases horacle : oracle tile with
    | ok xml =>
      rw [fetchTile_succ_ok cfg oracle n tile att s xml horacle] at h
      simp only [Option.some.injEq, Prod.mk.injEq] at h
      have hfs : fs = parseOsmXmlForWater xml := (Except.ok.inj h.1).symm
      refine ⟨[parseOsmXmlForWater xml], ?_, by simp [hfs]⟩
      simp [specLeafFeatures, horacle]
    | error e =>
      by_cases hrc : retryCondition cfg e tile
      · rw [fetchTile_succ_error_retry cfg oracle n tile att s e horacle hrc] at h
        obtain ⟨ls, hL, hfs⟩ :=
          runQuads_ok_leafList _ (specLeafFeatures cfg oracle n)
            (fun q s2 fs2 s2' hq => ih q (att + 1) s2 fs2 s2' hq)
            (splitBboxIntoQuads tile) (recordBackoff cfg att s) [] fs s' h
        refine ⟨ls, ?_, by simpa using hfs⟩
        simp [specLeafFeatures, horacle, hrc, hL]
      · rw [fetchTile_succ_error_throw cfg oracle n tile att s e horacle hrc] at h
        simp only [Option.some.injEq, Prod.mk.injEq] at h
        exact absurd h.1 (by simp)

/-- C2 (amended): a successful `resolve` returns exactly the
concatenation, in traversal order, of the feature lists of the leaf
fetches of the recursive split tree — their union as a multiset/set —
with NO deduplication of `(kind, id)` pairs performed anywhere. -/
theorem resolve_ok_eq_leaf_concat (cfg : FetchOptions)
    (oracle : Bbox → Except JsError XForest) (fuel : ℕ) (bbox : Bbox)
    (fs : List WaterFeature) (s' : RunState)
    (h : fetchOSMWaterPointsAdaptive cfg oracle fuel bbox = some (.ok fs, s')) :
    ∃ ls, specLeafFeatures cfg oracle fuel bbox = some (.ok ls) ∧ fs = ls.flatten :=
  fetchTile_ok_eq_leaf_concat cfg oracle fuel bbox 0 ⟨0, [], []⟩ fs s' h

/-- C2 witness: the refinement applied to the four-quadrant scenario run. -/
theorem resolve_ok_eq_leaf_concat_witness :
    ∃ ls, specLeafFeatures defaultOptions scenarioOracle 2 scenarioBox
        = some (.ok ls)
      ∧ [nodeDocFeature 1, nodeDocFeature 2, nodeDocFeature 3, nodeDocFeature 4] = ls.flatten :=
  resolve_ok_eq_leaf_concat defaultOptions scenarioOracle 2 scenarioBox
    [nodeDocFeature 1, nodeDocFeature 2, nodeDocFeature 3, nodeDocFeature 4]
    ⟨4, [1, 2, 3, 4], [(0, 500)]⟩ rfl

/-- C2 counterexample: when overlapping leaves return the same node
(kind `node`, id 7), the result keeps all four copies — the returned
sequence is NOT free of duplicate `(kind, id)` pairs. -/
theorem resolve_duplicate_kind_id_counterexample :
    fetchOSMWaterPointsAdaptive defaultOptions dupOracle 2 dupBox
      = some (.ok [nodeDocFeature 7, nodeDocFeature 7, nodeDocFeature 7, nodeDocFeature 7],
          ⟨4, [1, 2, 3, 4], [(0, 500)]⟩)
    ∧ ¬ (([nodeDocFeature 7, nodeDocFeature 7, nodeDocFeature 7, nodeDocFeature 7].map
          (fun f => (f.kind, f.id))).Nodup) :=
  ⟨by rfl, by decide⟩

theorem runQuads_sleeps_inv (P : ℕ × ℚ → Prop) (step : Bbox → RunState → Option TileResult)
    (hstep : ∀ q s r s', step q s = some (r, s') →
      (∀ p ∈ s.sleeps, P p) → ∀ p ∈ s'.sleeps, P p) :
    ∀ (qs : List Bbox) (s : RunState) (acc : List WaterFeature)
      (r : Except JsError (List WaterFeature)) (s' : RunState),
      runQuads step qs s acc = some (r, s') →
      (∀ p ∈ s.sleeps, P p) → ∀ p ∈ s'.sleeps, P p := by
  intro qs
  induction qs with
  | nil =>
    intro s acc r s' h hs
    simp only [runQuads, Option.some.injEq, Prod.mk.injEq] at h
    rw [← h.2]
    exact hs
  | cons q qs ih =>
    intro s acc r s' h hs
    rw [runQuads] at h
    cases hq : step q s with
    | none => rw [hq] at h; exact absurd h (by simp [bindStep])
    | some r1 =>
      obtain ⟨res, s1⟩ := r1
      have hs1 : ∀ p ∈ s1.sleeps, P p := hstep q s res s1 hq hs
      cases res with
      | error e =>
        rw [hq] at h
        simp only [bindStep, Option.some.injEq, Prod.mk.injEq] at h
        rw [← h.2]
        exact hs1
      | ok pts =>
        rw [hq] at h
        simp only [bindStep] at h
        exact ih s1 (appendPts acc pts) r s' h hs1

theorem recordBackoff_sleeps_inv (cfg : FetchOptions) (att : ℕ) (s : RunState)
    (hs : ∀ p ∈ s.sleeps, p.2 = computeBackoff cfg p.1) :
    ∀ p ∈ (recordBackoff cfg att s).sleeps, p.2 = computeBackoff cfg p.1 := by
  unfold recordBackoff
  split
  · intro p hp
    simp only [List.mem_append, List.mem_singleton] at hp
    rcases hp with hp | rfl
    · exact hs p hp
    · rfl
  · exact hs

theorem fetchTile_sleeps_formula (cfg : FetchOptions)
    (oracle : Bbox → Except JsError XForest) :
    ∀ (fuel : ℕ) (tile : Bbox) (att : ℕ) (s : RunState)
      (r : Except JsError (List WaterFeature)) (s' : RunState),
      fetchTile cfg oracle fuel tile att s = some (r, s') →
      (∀ p ∈ s.sleeps, p.2 = computeBackoff cfg p.1) →
      ∀ p ∈ s'.sleeps, p.2 = computeBackoff cfg p.1 := by
  intro fuel
  induction fuel with
  | zero => intro tile att s r s' h; exact absurd h (by simp [fetchTile])
  | succ n ih =>
    intro tile att s r s' h hs
    cases horacle : oracle tile with
    | ok xml =>
      rw [fetchTile_succ_ok cfg oracle n tile att s xml horacle] at h
      simp only [Option.some.injEq, Prod.mk.injEq] at h
      rw [← h.2]
      exact hs
    | error e =>
      by_cases hrc : retryCondition cfg e tile
      · rw [fetchTile_succ_error_retry cfg oracle n tile att s e horacle hrc] at h
        exact runQuads_sleeps_inv _ _
          (fun q s2 r2 s2' hq hs2 => ih q (att + 1) s2 r2 s2' hq hs2)
          (splitBboxIntoQuads tile) (recordBackoff cfg att s) [] r s' h
          (recordBackoff_sleeps_inv cfg att s hs)
      · rw [fetchTile_succ_error_throw cfg oracle n tile att s e horacle hrc] at h
        simp only [Option.some.injEq, Prod.mk.injEq] at h
        rw [← h.2]
        exact hs

/-- C5: every sleep a `resolve` run executes before splitting at
recursion attempt `a` (root attempt 0, `attempt+1` per split level)
sleeps exactly `min(initialBackoffMs · 2^a, maxBackoffMs)`. -/
theorem backoff_matches_formula (cfg : FetchOptions)
    (oracle : Bbox → Except JsError XForest) (fuel : ℕ) (bbox : Bbox)
    (r : Except JsError (List WaterFeature)) (s' : RunState) (p : ℕ × ℚ)
    (h : fetchOSMWaterPointsAdaptive cfg oracle fuel bbox = some (r, s'))
    (hp : p ∈ s'.sleeps) :
    p.2 = min (cfg.initialBackoffMs * 2 ^ p.1) cfg.maxBackoffMs := by
  have := fetchTile_sleeps_formula cfg oracle fuel bbox 0 ⟨0, [], []⟩ r s' h
    (by intro q hq; exact absurd hq (List.not_mem_nil q)) p hp
  simpa [computeBackoff] using this

/-- C5 witness: the formula checked on the scenario run, whose one sleep
is `(attempt 0, 500ms)`. -/
theorem backoff_matches_formula_witness :
    ((0 : ℕ), (500 : ℚ)).2
      = min (defaultOptions.initialBackoffMs * 2 ^ ((0 : ℕ), (500 : ℚ)).1)
          defaultOptions.maxBackoffMs :=
  backoff_matches_formula defaultOptions scenarioOracle 2 scenarioBox
    (.ok [nodeDocFeature 1, nodeDocFeature 2, nodeDocFeature 3, nodeDocFeature 4])
    ⟨4, [1, 2, 3, 4], [(0, 500)]⟩ (0, 500) rfl (by decide)

theorem foldl_push_filterMap {α β : Type} (push : List β → α → List β) (f : α → Option β)
    (hsome : ∀ acc x b, f x = some b → push acc x = acc ++ [b])
    (hnone : ∀ acc x, f x = none → push acc x = acc) :
    ∀ (l : List α) (init : List β), l.foldl push init = init ++ l.filterMap f := by
  intro l
  induction l with
  | nil => intro init; simp
  | cons x xs ih =>
    intro init
    cases hfx : f x with
    | none =>
      rw [List.foldl_cons, hnone init x hfx, List.filterMap_cons, hfx]
      exact ih init
    | some b =>
      rw [List.foldl_cons, hsome init x b hfx, List.filterMap_cons, hfx, ih (init ++ [b])]
      simp

theorem nodePush_some (acc : List WaterFeature) (node : XElem) (f : WaterFeature)
    (h : nodeFeature? node = some f) : nodePush acc node = acc ++ [f] := by
  unfold nodeFeature? at h
  unfold nodePush
  by_cases hw : isWaterTags (collectTags (getElementsByTagName node "tag"))
  · simp only [if_pos hw] at h ⊢
    cases h1 : jsToNumber (getAttribute node "lat") <;>
      cases h2 : jsToNumber (getAttribute node "lon") <;>
      rw [h1, h2] at h <;> simp_all
  · simp only [if_neg hw] at h
    exact absurd h (by simp)

theorem nodePush_none (acc : List WaterFeature) (node : XElem)
    (h : nodeFeature? node = none) : nodePush acc node = acc := by
  unfold nodeFeature? at h
  unfold nodePush
  by_cases hw : isWaterTags (collectTags (getElementsByTagName node "tag"))
  · simp only [if_pos hw] at h ⊢
    cases h1 : jsToNumber (getAttribute node "lat") <;>
      cases h2 : jsToNumber (getAttribute node "lon") <;>
      rw [h1, h2] at h <;> simp_all
  · simp only [if_neg hw]

theorem centerPush_some (kind : FeatureKind) (acc : List WaterFeature) (el : XElem)
    (f : WaterFeature) (h : centerFeature? kind el = some f) :
    centerPush kind acc el = acc ++ [f] := by
  unfold centerPush
  by_cases hw : isWaterTags (collectTags (getElementsByTagName el "tag"))
  · simp only [if_pos hw]
    have h2 : f = ⟨jsToNumber (getAttribute el "id"),
        collectTags (getElementsByTagName el "tag"), kind, centerOf el⟩ := by
      unfold centerFeature? at h
      simp only [if_pos hw] at h
      exact (Option.some.inj h).symm
    rw [h2]
    rfl
  · unfold centerFeature? at h
    simp only [if_neg hw] at h
    exact absurd h (by simp)

theorem centerPush_none (kind : FeatureKind) (acc : List WaterFeature) (el : XElem)
    (h : centerFeature? kind el = none) : centerPush kind acc el = acc := by
  unfold centerFeature? at h
  unfold centerPush
  by_cases hw : isWaterTags (collectTags (getElementsByTagName el "tag"))
  · simp only [if_pos hw] at h
    exact absurd h (by simp)
  · simp only [if_neg hw]

/-- C8 (amended): the parser includes an element iff its tag mapping
passes `amenity==drinking_water ∨ natural==spring ∨ man_made==water_tap`;
a node is then emitted iff BOTH its `lat` and `lon` attribute
conversions are finite — an ABSENT attribute converts (as
`Number(null) = 0`) to the finite value 0, so such a node is emitted at
coordinate 0, not dropped — while a way/relation is always emitted,
carrying a center position exactly when the first nested `center`
element's converted coordinates are both finite (again with absent
center attributes converting to 0). -/
theorem parseOsmXmlForWater_eq_spec (doc : XForest) :
    parseOsmXmlForWater doc = specParseWater doc := by
  have hN := foldl_push_filterMap nodePush nodeFeature? nodePush_some nodePush_none
    (docElementsByTagName doc "node") []
  have hW := foldl_push_filterMap (centerPush .way) (centerFeature? .way)
    (centerPush_some .way) (centerPush_none .way) (docElementsByTagName doc "way")
  have hR := foldl_push_filterMap (centerPush .relation) (centerFeature? .relation)
    (centerPush_some .relation) (centerPush_none .relation)
    (docElementsByTagName doc "relation")
  simp only [parseOsmXmlForWater, specParseWater, hN, hW, hR]
  simp

/-- C8 counterexample: a water-tagged node with NO `lat` attribute is
not dropped — `Number(null) = 0` passes the finiteness check, so the
node is emitted with latitude 0 (refuting "dropped when either is
absent"). -/
theorem node_missing_lat_emitted_counterexample :
    parseOsmXmlForWater nodeMissingLat
      = [⟨some 9, [("amenity", some "drinking_water")], .node, some (0, 5)⟩] := by
  rfl

/-- C10: `pointToSegmentDistanceMeters` is total — the guarded squared
length is never 0 (so the division is always well-defined), and on a
degenerate segment (both endpoints projecting to the same planar point)
the function returns exactly the Euclidean distance from the projected
point to that endpoint. -/
theorem pointToSegmentDistance_total_degenerate (p a b : ℝ × ℝ) (u v : ℝ)
    (h : lonLatToWebMercator a.1 a.2 = lonLatToWebMercator b.1 b.2) :
    guardedLen2 (u * u + v * v) ≠ 0
    ∧ pointToSegmentDistanceMeters p a b
        = planarDist (lonLatToWebMercator p.1 p.2) (lonLatToWebMercator a.1 a.2) := by
  constructor
  · unfold guardedLen2
    split
    · norm_num
    · next hne => exact hne
  · simp only [pointToSegmentDistanceMeters, planarDist, ← h]
    simp [guardedLen2]

/-- C10 witness: the theorem applied to the identical point
`(0, 0) = (0, 0) = (0, 0)` (a syntactically degenerate segment). -/
theorem pointToSegmentDistance_total_degenerate_witness :
    guardedLen2 ((0 : ℝ) * 0 + 0 * 0) ≠ 0
    ∧ pointToSegmentDistanceMeters ((0 : ℝ), (0 : ℝ)) (0, 0) (0, 0)
        = planarDist (lonLatToWebMercator 0 0) (lonLatToWebMercator 0 0) :=
  pointToSegmentDistance_total_degenerate ((0 : ℝ), (0 : ℝ)) (0, 0) (0, 0) 0 0 rfl

theorem foldl_min_le_init {β : Type} (f : β → WithTop ℝ) :
    ∀ (l : List β) (init : WithTop ℝ),
      l.foldl (fun acc x => min acc (f x)) init ≤ init := by
  intro l
  induction l with
  | nil => intro init; exact le_refl init
  | cons x xs ih =>
    intro init
    rw [List.foldl_cons]
    exact le_trans (ih (min init (f x))) (min_le_left init (f x))

theorem scanLines_le_iff (pt : ℝ × ℝ) (r : ℝ) :
    ∀ (lss : List (List (ℚ × ℚ))) (m : WithTop ℝ),
      scanLines pt r lss m ≤ (r : WithTop ℝ)
        ↔ lss.foldl (fun acc ls => min acc (minDistancePointToLineStringMeters pt ls)) m
            ≤ (r : WithTop ℝ) := by
  intro lss
  induction lss with
  | nil => intro m; exact Iff.rfl
  | cons ls rest ih =>
    intro m
    have hmin : (if minDistancePointToLineStringMeters pt ls < m
        then minDistancePointToLineStringMeters pt ls else m)
        = min m (minDistancePointToLineStringMeters pt ls) := by
      rcases lt_or_le (minDistancePointToLineStringMeters pt ls) m with hlt | hle
      · rw [if_pos hlt, min_eq_right hlt.le]
      · rw [if_neg (not_lt.mpr hle), min_eq_left hle]
    simp only [scanLines, hmin, List.foldl_cons]
    by_cases hc : min m (minDistancePointToLineStringMeters pt ls) ≤ (r : WithTop ℝ)
    · rw [if_pos hc]
      constructor
      · intro _
        exact le_trans (foldl_min_le_init _ rest _) hc
      · intro _
        exact hc
    · rw [if_neg hc]
      exact ih _

theorem foldl_if_push_filter {α : Type} (g : α → Bool) (push : List α → α → List α)
    (hpush : ∀ acc x, push acc x = if g x then acc ++ [x] else acc) :
    ∀ (l : List α) (init : List α), l.foldl push init = init ++ l.filter g := by
  intro l
  induction l with
  | nil => intro init; simp
  | cons x xs ih =>
    intro init
    rw [List.foldl_cons, hpush, List.filter_cons]
    cases hgx : g x with
    | false =>
      rw [if_neg (by simp [hgx]), if_neg (by simp [hgx])]
      exact ih init
    | true =>
      rw [if_pos (by simp [hgx]), if_pos (by simp [hgx]), ih (init ++ [x])]
      simp

/-- C7: `filterPointsNearRoute` returns exactly the input features that
have a finite resolvable position and whose minimum Web-Mercator
point-to-segment distance over all route linestrings and consecutive
segment pairs (parametrize, clamp `t` to `[0,1]`, Euclidean distance to
the clamped position) is ≤ the radius; features without a finite
position are excluded. -/
theorem filterPointsNearRoute_eq_spec (route : GeoRoute) (points : List WaterFeature)
    (r : ℝ) : filterPointsNearRoute route points r = filterNearSpec route points r := by
  have hbody : ∀ (acc : List WaterFeature) (p : WaterFeature),
      (match p.pos with
        | none => acc
        | some c =>
          if scanLines ((c.2 : ℝ), (c.1 : ℝ)) r (extractRouteLineStrings route) ⊤
              ≤ (r : WithTop ℝ) then acc ++ [p]
          else acc)
      = if (@decide (nearPredicate route r p) (Classical.propDecidable _) : Bool)
        then acc ++ [p] else acc := by
    intro acc p
    cases hpos : p.pos with
    | none =>
      have hnp : ¬ nearPredicate route r p := by
        rintro ⟨c, hc, -⟩
        rw [hpos] at hc
        exact Option.noConfusion hc
      dsimp only
      rw [@decide_eq_false (nearPredicate route r p) (Classical.propDecidable _) hnp]
      simp
    | some c =>
      have hiff : nearPredicate route r p
          ↔ scanLines ((c.2 : ℝ), (c.1 : ℝ)) r (extractRouteLineStrings route) ⊤
              ≤ (r : WithTop ℝ) := by
        rw [scanLines_le_iff]
        constructor
        · rintro ⟨c2, hc2, hle⟩
          rw [hpos] at hc2
          obtain rfl : c = c2 := Option.some.inj hc2
          simpa [minDistanceToRoute] using hle
        · intro hle
          exact ⟨c, hpos, by simpa [minDistanceToRoute] using hle⟩
      dsimp only
      by_cases hnp : nearPredicate route r p
      · rw [if_pos (hiff.mp hnp),
          @decide_eq_true (nearPredicate route r p) (Classical.propDecidable _) hnp]
        simp
      · rw [if_neg (fun hc2 => hnp (hiff.mpr hc2)),
          @decide_eq_false (nearPredicate route r p) (Classical.propDecidable _) hnp]
        simp
  unfold filterPointsNearRoute filterNearSpec
  by_cases hempty : (extractRouteLineStrings route).isEmpty
  · have hnil : extractRouteLineStrings route = [] := List.isEmpty_iff.mp hempty
    rw [if_pos hempty]
    symm
    rw [List.filter_eq_nil_iff]
    intro p _
    have hnp : ¬ nearPredicate route r p := by
      rintro ⟨c, -, hle⟩
      rw [minDistanceToRoute, hnil] at hle
      simp only [List.foldl_nil] at hle
      exact (WithTop.coe_ne_top : (r : WithTop ℝ) ≠ ⊤) (top_le_iff.mp hle)
    rw [@decide_eq_false (nearPredicate route r p) (Classical.propDecidable _) hnp]
    simp
  · rw [if_neg hempty]
    exact foldl_if_push_filter _ _ hbody points []
